import Mathlib

/-!
Shallow embedding of the Vercel serverless request adapter
(`src/api/agents/_base.py`, class `VercelAgentHandler`).

The adapter receives a serverless request envelope, validates the body into a
`RunAgentInput`, converts the messages, invokes the external agent runtime and
buffers the incremental output as concatenated Server-Sent-Events frames.

External collaborators (the base64 decoder, the JSON-parse-plus-schema-validate
step `json.loads` + `RunAgentInput.model_validate`, and the agent runtime
`agent.run_stream`) are passed in as explicit function parameters: the Python
source treats them as opaque capabilities, and every theorem below quantifies
over them or instantiates them concretely.
-/

/-- JSON values as produced by the adapter (the adapter only ever serializes
`None`, booleans, numbers, strings and string-keyed objects; `json.dumps`
preserves the insertion order of Python dicts, modelled by the field list). -/
inductive Json where
  | null : Json
  | bool : Bool → Json
  | num : Int → Json
  | str : String → Json
  | obj : List (String × Json) → Json

/-- One character of Python `json.dumps` string escaping: `"` and `\` are
backslash-escaped, the common control characters use their short escapes and
the remaining control characters use a `\u00XX` escape. -/
def escapeChar (c : Char) : String :=
  if c = '"' then "\\\""
  else if c = '\\' then "\\\\"
  else if c = '\n' then "\\n"
  else if c = '\r' then "\\r"
  else if c = '\t' then "\\t"
  else if c.toNat < 32 then
    "\\u00" ++ String.singleton (Nat.digitChar (c.toNat / 16))
      ++ String.singleton (Nat.digitChar (c.toNat % 16))
  else String.singleton c

/-- `json.dumps` escaping applied to a character list. -/
def escapeList : List Char → String
  | [] => ""
  | c :: cs => escapeChar c ++ escapeList cs

/-- `json.dumps` escaping applied to a string. -/
def escapeString (s : String) : String := escapeList s.data

mutual

/-- Serialization of a JSON value in the style of Python `json.dumps` with its
default separators `", "` and `": "`. -/
def dumps : Json → String
  | .null => "null"
  | .bool b => cond b "true" "false"
  | .num n => toString n
  | .str s => "\"" ++ escapeString s ++ "\""
  | .obj fields => "\x7b" ++ dumpsFields fields ++ "\x7d"

/-- Serialization of the fields of a JSON object, comma-separated. -/
def dumpsFields : List (String × Json) → String
  | [] => ""
  | [(k, v)] => "\"" ++ escapeString k ++ "\": " ++ dumps v
  | (k, v) :: f :: fs =>
    "\"" ++ escapeString k ++ "\": " ++ dumps v ++ ", " ++ dumpsFields (f :: fs)

end

/-- An incoming AG-UI message as the adapter reads it: a dict whose `role` and
`content` keys may each be absent (`msg.get('role', 'user')`,
`msg.get('content', '')`). -/
structure RawMsg where
  role : Option String
  content : Option String
deriving DecidableEq

/-- A converted message: the dict `\x7b'role': r, 'content': c\x7d` built by
`_convert_messages`. A plain Python `dict` carries no attributes. -/
structure PMsg where
  role : String
  content : String
deriving DecidableEq

/-- The validated request (`RunAgentInput`): the adapter only ever reads its
`messages` field (`run_input.messages`). -/
structure RunAgentInput where
  messages : List RawMsg
deriving DecidableEq

/-- The serverless request envelope: the adapter reads
`event.get('httpMethod', 'POST')`, `event.get('body', '\x7b\x7d')` and the
truthiness of `event.get('isBase64Encoded')`. -/
structure RequestEvent where
  httpMethod : Option String
  body : Option String
  isBase64Encoded : Bool
deriving DecidableEq

/-- The response dict returned to the serverless host. `_error_response`
builds a dict without an `isBase64Encoded` key, the streaming response sets it
to `False`; the key is therefore optional. -/
structure HTTPResponse where
  statusCode : Nat
  headers : List (String × String)
  body : String
  isBase64Encoded : Option Bool
deriving DecidableEq

/-- The aggregate result of a completed agent run: `final_result.data`, plus
`final_result.usage().total_cost` when a `usage` attribute exists (`None`
otherwise). No claim inspects the numeric value of the cost, so it is
modelled as an integer-valued JSON number. -/
structure FinalResult where
  data : String
  cost : Option Int
deriving DecidableEq

/-- One observed behaviour of `agent.run_stream(...)`: either the stream
yields its chunks (each with the optional `result.timestamp().isoformat()`
string) and then a final aggregate result, or it raises after yielding a
prefix of chunks, with the exception's message. -/
inductive AgentOutcome where
  | success : List (String × Option String) → FinalResult → AgentOutcome
  | failure : List (String × Option String) → String → AgentOutcome
deriving DecidableEq

/-- The external agent runtime as the adapter calls it: first argument the
new-turn content, second the message history. -/
def AgentRunFn : Type := String → List PMsg → AgentOutcome

/-- `_convert_messages`: keep `user` / `assistant` / `system` messages as
`\x7brole, content\x7d` dicts, in order, silently dropping any other role;
a missing role defaults to `user`, missing content to the empty string. -/
def convert_messages : List RawMsg → List PMsg
  | [] => []
  | msg :: rest =>
    let role := msg.role.getD "user"
    let content := msg.content.getD ""
    if role = "user" then { role := "user", content } :: convert_messages rest
    else if role = "assistant" then { role := "assistant", content } :: convert_messages rest
    else if role = "system" then { role := "system", content } :: convert_messages rest
    else convert_messages rest

/-- `_format_sse_event`: `f"data: \x7bdata_str\x7d\n\n"`. -/
def format_sse_event (event_data : Json) : String :=
  "data: " ++ dumps event_data ++ "\n\n"

/-- The initial event `\x7b'type': 'agent_response', 'data': \x7b'status': 'started'\x7d\x7d`. -/
def started_event : Json :=
  .obj [("type", .str "agent_response"), ("data", .obj [("status", .str "started")])]

/-- The per-chunk event built in the `async for` loop. -/
def chunk_event (content : String) (timestamp : Option String) : Json :=
  .obj [("type", .str "agent_response"),
        ("data", .obj [("content", .str content),
                       ("timestamp", (timestamp.map Json.str).getD .null)])]

/-- The final event appended after the stream completes. -/
def final_event (r : FinalResult) : Json :=
  .obj [("type", .str "agent_response"),
        ("data", .obj [("content", .str r.data),
                       ("status", .str "completed"),
                       ("cost", (r.cost.map Json.num).getD .null)])]

/-- The in-stream error event `\x7b'type': 'error', 'data': \x7b'message': str(e)\x7d\x7d`. -/
def error_event (message : String) : Json :=
  .obj [("type", .str "error"), ("data", .obj [("message", .str message)])]

/-- Python attribute access on one of the plain `dict` values built by
`_convert_messages`: a builtin `dict` has no `content` attribute, so the
access `messages[-1].content` in `_stream_agent_response` raises
`AttributeError` with this message. -/
def dictAttrContent (_ : PMsg) : Except String String :=
  .error "'dict' object has no attribute 'content'"

/-- The first argument of `agent.run_stream`:
`messages[-1].content if messages else ""`. For a non-empty list this is an
attribute access on a `dict` and raises; for an empty list it is `""`. -/
def latest_message_arg (messages : List PMsg) : Except String String :=
  match messages.getLast? with
  | some last => dictAttrContent last
  | none => .ok ""

/-- The `message_history` argument of `agent.run_stream`:
`messages[:-1] if len(messages) > 1 else []`. -/
def message_history_arg (messages : List PMsg) : List PMsg :=
  if messages.length > 1 then messages.dropLast else []

/-- The SSE events appended for one agent-run outcome: the chunk events in
stream order followed by the final event, or (when the stream raises) the
chunk events yielded before the failure followed by one error event. -/
def outcome_events : AgentOutcome → List Json
  | .success chunks final =>
    chunks.map (fun c => chunk_event c.1 c.2) ++ [final_event final]
  | .failure emitted e =>
    emitted.map (fun c => chunk_event c.1 c.2) ++ [error_event e]

/-- The full event sequence buffered by `_stream_agent_response`: the started
event, then — unless evaluating the `run_stream` arguments raises, in which
case the `except` clause appends one error event — the events of the agent-run
outcome. -/
def stream_events (agent_run : AgentRunFn) (messages : List PMsg) : List Json :=
  started_event ::
    match latest_message_arg messages with
    | .error e => [error_event e]
    | .ok latest => outcome_events (agent_run latest (message_history_arg messages))

/-- The headers of the streaming (HTTP 200) response. -/
def stream_headers : List (String × String) :=
  [("Content-Type", "text/event-stream"),
   ("Cache-Control", "no-cache"),
   ("Connection", "keep-alive"),
   ("Access-Control-Allow-Origin", "*"),
   ("Access-Control-Allow-Headers", "Content-Type"),
   ("Access-Control-Allow-Methods", "POST, OPTIONS")]

/-- `_stream_agent_response`: convert the messages, buffer the SSE frames and
return the HTTP 200 streaming response with the concatenated frames as body. -/
def stream_agent_response (agent_run : AgentRunFn) (run_input : RunAgentInput) :
    HTTPResponse :=
  let messages := convert_messages run_input.messages
  { statusCode := 200
    headers := stream_headers
    body := String.join ((stream_events agent_run messages).map format_sse_event)
    isBase64Encoded := some false }

/-- `_error_response`: a JSON error body with the two fixed headers and no
`isBase64Encoded` key. -/
def error_response (status_code : Nat) (message : String) : HTTPResponse :=
  { statusCode := status_code
    headers := [("Content-Type", "application/json"),
                ("Access-Control-Allow-Origin", "*")]
    body := dumps (.obj [("error", .str message)])
    isBase64Encoded := none }

/-- `handle_request`: reject non-POST methods with 405; decode the body
(base64 first when flagged; a decode failure escapes the inner `try` and is
caught by the outer one as a 500); parse and validate it, answering 400 on
failure; otherwise stream the agent response. -/
def handle_request (b64decode : String → Except String String)
    (parse : String → Except String RunAgentInput)
    (agent_run : AgentRunFn) (event : RequestEvent) : HTTPResponse :=
  let method := event.httpMethod.getD "POST"
  if method ≠ "POST" then error_response 405 "Method not allowed"
  else
    let rawBody := event.body.getD "\x7b\x7d"
    match (if event.isBase64Encoded then b64decode rawBody else .ok rawBody) with
    | .error e => error_response 500 ("Internal server error: " ++ e)
    | .ok body =>
      match parse body with
      | .error e => error_response 400 ("Invalid request body: " ++ e)
      | .ok run_input => stream_agent_response agent_run run_input

/-- Lookup of a key in a JSON object (the mapping obtained by decoding the
payload of an emitted frame); `none` on non-objects. -/
def Json.lookup (j : Json) (key : String) : Option Json :=
  match j with
  | .obj fields => List.lookup key fields
  | _ => none

/-- The `type` tag of an event: the value of its `type` key when that value
is a string. -/
def event_type_tag (j : Json) : Option String :=
  match j.lookup "type" with
  | some (.str t) => some t
  | _ => none

/-- The concrete valid request of §8.4 of the spec: a single user message
with content `"Hi"`. -/
def hiInput : RunAgentInput := ⟨[⟨some "user", some "Hi"⟩]⟩

/-- A base64 decoder that succeeds on every input, used to instantiate
witnesses. -/
def wB64 : String → Except String String := fun s => .ok s

/-- A parse-and-validate step that accepts every body as the empty-message
request, used to instantiate witnesses. -/
def wParseEmpty : String → Except String RunAgentInput := fun _ => .ok ⟨[]⟩

/-- A parse-and-validate step that rejects every body, used to instantiate
witnesses. -/
def wParseFail : String → Except String RunAgentInput := fun _ => .error "missing messages"

/-- An agent runtime that yields one chunk and then raises, used to
instantiate witnesses. -/
def wFailRun : AgentRunFn := fun _ _ => .failure [("chunk", some "t0")] "boom"

/-- An agent runtime that immediately completes with an empty result, used to
instantiate witnesses. -/
def wOkRun : AgentRunFn := fun _ _ => .success [] ⟨"", none⟩

/-- A plain POST envelope with body `"x"`, used to instantiate witnesses. -/
def wPostEvent : RequestEvent := ⟨some "POST", some "x", false⟩

/-- A GET envelope, used to instantiate witnesses. -/
def wGetEvent : RequestEvent := ⟨some "GET", some "x", false⟩

/-- Escaping distributes over list concatenation. -/
theorem escapeList_append (a b : List Char) :
    escapeList (a ++ b) = escapeList a ++ escapeList b := by
  induction a with
  | nil => simp [escapeList]
  | cons c cs ih => simp [escapeList, ih, String.append_assoc]

/-- Escaping distributes over string concatenation. -/
theorem escapeString_append (a b : String) :
    escapeString (a ++ b) = escapeString a ++ escapeString b := by
  show escapeList (a ++ b).data = _
  rw [String.data_append]
  exact escapeList_append a.data b.data

/-- A chunk event is tagged `agent_response`. -/
theorem event_type_tag_chunk (c : String) (ts : Option String) :
    event_type_tag (chunk_event c ts) = some "agent_response" := rfl

/-- An error event is tagged `error`. -/
theorem event_type_tag_error (m : String) :
    event_type_tag (error_event m) = some "error" := rfl

/-- No chunk frame is tagged `error`. -/
theorem chunk_frames_not_error (l : List (String × Option String)) :
    (l.map fun c => chunk_event c.1 c.2).filter
      (fun j => event_type_tag j == some "error") = [] := by
  induction l with
  | nil => rfl
  | cons c cs ih =>
    simp only [List.map_cons, List.filter_cons, event_type_tag_chunk]
    simpa using ih

/-- Every member of an outcome's event list is a chunk, final or error
event. -/
theorem mem_outcome_events (o : AgentOutcome) (ev : Json) (h : ev ∈ outcome_events o) :
    (∃ c ts, ev = chunk_event c ts) ∨ (∃ r, ev = final_event r) ∨
    (∃ m, ev = error_event m) := by
  cases o with
  | success chunks final =>
    simp only [outcome_events, List.mem_append, List.mem_map,
      List.mem_singleton] at h
    rcases h with ⟨c, _, rfl⟩ | rfl
    · exact .inl ⟨c.1, c.2, rfl⟩
    · exact .inr (.inl ⟨final, rfl⟩)
  | failure emitted e =>
    simp only [outcome_events, List.mem_append, List.mem_map,
      List.mem_singleton] at h
    rcases h with ⟨c, _, rfl⟩ | rfl
    · exact .inl ⟨c.1, c.2, rfl⟩
    · exact .inr (.inr ⟨e, rfl⟩)

/-- Claim C1, evaluated at the failing input: for the valid request with a
single user message of content `"Hi"` (and an agent runtime that would stream
`"Hello"` and complete with `"Hello!"`), the attribute access
`messages[-1].content` on the dict built by `_convert_messages` raises
`AttributeError`, so the returned body is the started frame followed by a
single error frame — no content frames and no `status: completed` frame,
contrary to the claimed started / content / completed sequence. -/
theorem hi_request_yields_error_frame :
    handle_request (fun s => .ok s) (fun _ => .ok hiInput)
        (fun _ _ => .success [("Hello", none)] ⟨"Hello!", none⟩)
        ⟨some "POST", some "x", false⟩ =
      { statusCode := 200
        headers := stream_headers
        body := format_sse_event started_event ++
          format_sse_event (error_event "'dict' object has no attribute 'content'")
        isBase64Encoded := some false } ∧
    stream_events (fun _ _ => .success [("Hello", none)] ⟨"Hello!", none⟩)
        (convert_messages hiInput.messages) =
      [started_event, error_event "'dict' object has no attribute 'content'"] :=
  ⟨rfl, rfl⟩

/-- Claim C2, evaluated at the failing input: for the non-empty validated
message list of `hiInput` the agent-run API is never invoked — the response is
the same for any two agent runtimes, because evaluating the argument
`messages[-1].content` raises before `agent.run_stream` is called — and the
buffered frames are the started frame and an `AttributeError` error frame. -/
theorem nonempty_messages_runtime_not_invoked (r₁ r₂ : AgentRunFn) :
    stream_agent_response r₁ hiInput = stream_agent_response r₂ hiInput ∧
    stream_events r₁ (convert_messages hiInput.messages) =
      [started_event, error_event "'dict' object has no attribute 'content'"] :=
  ⟨rfl, rfl⟩

/-- Claim C3: when the agent runtime raises partway through streaming (which
the code reaches exactly when the converted message list is empty),
`handle_request` still returns status 200, and the body is the frames
buffered before the failure — the started frame and the chunk frames already
yielded, unchanged and in order — followed by exactly one `error`-typed
frame, as the last frame, carrying the exception's message. -/
theorem handle_request_stream_failure_returns_200
    (b64decode : String → Except String String)
    (parse : String → Except String RunAgentInput)
    (agent_run : AgentRunFn) (event : RequestEvent) (decoded : String)
    (ri : RunAgentInput) (emitted : List (String × Option String)) (err : String)
    (hpost : event.httpMethod.getD "POST" = "POST")
    (hdec : (if event.isBase64Encoded then b64decode (event.body.getD "\x7b\x7d")
        else .ok (event.body.getD "\x7b\x7d")) = .ok decoded)
    (hparse : parse decoded = .ok ri)
    (hempty : convert_messages ri.messages = [])
    (hfail : agent_run "" [] = .failure emitted err) :
    handle_request b64decode parse agent_run event =
      { statusCode := 200
        headers := stream_headers
        body := String.join
          (((started_event :: emitted.map fun c => chunk_event c.1 c.2) ++
            [error_event err]).map format_sse_event)
        isBase64Encoded := some false } ∧
    (((started_event :: emitted.map fun c => chunk_event c.1 c.2) ++
      [error_event err]).filter
        (fun j => event_type_tag j == some "error")).length = 1 ∧
    ((started_event :: emitted.map fun c => chunk_event c.1 c.2) ++
      [error_event err]).getLast? = some (error_event err) := by
  refine ⟨?_, ?_, List.getLast?_concat _⟩
  · simp [handle_request, hpost, hdec, hparse, stream_agent_response, hempty,
      stream_events, latest_message_arg, message_history_arg, hfail,
      outcome_events]
  · simp only [List.filter_append, List.filter_cons, event_type_tag_error,
      chunk_frames_not_error]
    simp [started_event, event_type_tag, Json.lookup]

/-- Witness for claim C3: a concrete empty-message request with an agent
runtime that yields one chunk and then raises `boom`. -/
theorem handle_request_stream_failure_returns_200_witness :
    handle_request wB64 wParseEmpty wFailRun wPostEvent =
      { statusCode := 200
        headers := stream_headers
        body := String.join
          (((started_event ::
              [(("chunk" : String), some "t0")].map fun c => chunk_event c.1 c.2) ++
            [error_event "boom"]).map format_sse_event)
        isBase64Encoded := some false } ∧
    (((started_event ::
        [(("chunk" : String), some "t0")].map fun c => chunk_event c.1 c.2) ++
      [error_event "boom"]).filter
        (fun j => event_type_tag j == some "error")).length = 1 ∧
    ((started_event ::
        [(("chunk" : String), some "t0")].map fun c => chunk_event c.1 c.2) ++
      [error_event "boom"]).getLast? = some (error_event "boom") :=
  handle_request_stream_failure_returns_200 wB64 wParseEmpty wFailRun wPostEvent "x"
    ⟨[]⟩ [("chunk", some "t0")] "boom" rfl rfl rfl rfl rfl

/-- Claim C4: for every envelope whose `httpMethod` is present and differs
from `POST`, `handle_request` returns the 405 error response, and the agent
runtime is never invoked (the result does not depend on it). -/
theorem handle_request_non_post_is_405 (b64decode : String → Except String String)
    (parse : String → Except String RunAgentInput) (agent_run agent_run₂ : AgentRunFn)
    (event : RequestEvent) (m : String) (hm : event.httpMethod = some m)
    (hne : m ≠ "POST") :
    handle_request b64decode parse agent_run event =
      error_response 405 "Method not allowed" ∧
    handle_request b64decode parse agent_run event =
      handle_request b64decode parse agent_run₂ event := by
  constructor <;> · unfold handle_request; rw [hm]; simp [hne]

/-- Witness for claim C4: a concrete GET envelope. -/
theorem handle_request_non_post_is_405_witness :
    handle_request wB64 wParseEmpty wOkRun wGetEvent =
      error_response 405 "Method not allowed" ∧
    handle_request wB64 wParseEmpty wOkRun wGetEvent =
      handle_request wB64 wParseEmpty wFailRun wGetEvent :=
  handle_request_non_post_is_405 wB64 wParseEmpty wOkRun wFailRun wGetEvent "GET" rfl
    (by decide)

/-- Claim C5: for every POST request whose decoded body fails the
JSON-parse-plus-schema-validation step, `handle_request` returns the 400
error response, whose JSON body's error message contains
`Invalid request body`, and the agent runtime is never invoked. -/
theorem handle_request_bad_body_is_400
    (b64decode : String → Except String String)
    (parse : String → Except String RunAgentInput)
    (agent_run agent_run₂ : AgentRunFn) (event : RequestEvent)
    (decoded e : String)
    (hpost : event.httpMethod.getD "POST" = "POST")
    (hdec : (if event.isBase64Encoded then b64decode (event.body.getD "\x7b\x7d")
        else .ok (event.body.getD "\x7b\x7d")) = .ok decoded)
    (hparse : parse decoded = .error e) :
    handle_request b64decode parse agent_run event =
      error_response 400 ("Invalid request body: " ++ e) ∧
    (∃ rest, "Invalid request body: " ++ e = "Invalid request body" ++ rest) ∧
    (∃ pre post, (handle_request b64decode parse agent_run event).body =
      pre ++ ("Invalid request body" ++ post)) ∧
    handle_request b64decode parse agent_run event =
      handle_request b64decode parse agent_run₂ event := by
  have hmain : ∀ r : AgentRunFn, handle_request b64decode parse r event =
      error_response 400 ("Invalid request body: " ++ e) := by
    intro r
    simp [handle_request, hpost, hdec, hparse]
  have hesc : escapeString ("Invalid request body: " ++ e) =
      "Invalid request body" ++ (": " ++ escapeString e) := by
    rw [escapeString_append, show escapeString "Invalid request body: " =
      "Invalid request body" ++ ": " from by decide, String.append_assoc]
  refine ⟨hmain agent_run, ⟨": " ++ e, ?_⟩, ?_,
    (hmain agent_run).trans (hmain agent_run₂).symm⟩
  · rw [← String.append_assoc]
    congr 1
  · refine ⟨"\x7b" ++ ("\"" ++ (escapeString "error" ++ ("\": " ++ "\""))),
      ": " ++ (escapeString e ++ ("\"" ++ "\x7d")), ?_⟩
    rw [hmain agent_run]
    show ("\x7b" ++ ((("\"" ++ escapeString "error") ++ "\": ") ++
      (("\"" ++ escapeString ("Invalid request body: " ++ e)) ++ "\""))) ++ "\x7d" = _
    rw [hesc]
    simp only [String.append_assoc]

/-- Witness for claim C5: a concrete POST envelope whose body is rejected by
the validation step. -/
theorem handle_request_bad_body_is_400_witness :
    handle_request wB64 wParseFail wOkRun wPostEvent =
      error_response 400 ("Invalid request body: " ++ "missing messages") ∧
    (∃ rest, "Invalid request body: " ++ "missing messages" =
      "Invalid request body" ++ rest) ∧
    (∃ pre post, (handle_request wB64 wParseFail wOkRun wPostEvent).body =
      pre ++ ("Invalid request body" ++ post)) ∧
    handle_request wB64 wParseFail wOkRun wPostEvent =
      handle_request wB64 wParseFail wFailRun wPostEvent :=
  handle_request_bad_body_is_400 wB64 wParseFail wOkRun wFailRun wPostEvent "x"
    "missing messages" rfl rfl rfl

/-- Claim C6: for a request whose validated message list is empty, the
adapter does not raise when selecting the latest message: it selects the
empty string, passes an empty history to the agent-run call, and returns the
streaming response built from that call. -/
theorem empty_messages_no_index_error (agent_run : AgentRunFn) :
    latest_message_arg (convert_messages (RunAgentInput.mk []).messages) = .ok "" ∧
    message_history_arg (convert_messages (RunAgentInput.mk []).messages) = [] ∧
    stream_agent_response agent_run ⟨[]⟩ =
      { statusCode := 200
        headers := stream_headers
        body := String.join
          ((started_event :: outcome_events (agent_run "" [])).map format_sse_event)
        isBase64Encoded := some false } :=
  ⟨rfl, rfl, rfl⟩

/-- Claim C7: the conversion step keeps exactly the messages whose role is
`user`, `assistant` or `system`, each mapped to a role/content record,
preserves their relative order, and silently drops every other role. -/
theorem convert_messages_filters_roles (ms : List (String × String)) :
    convert_messages (ms.map fun p => ⟨some p.1, some p.2⟩) =
      (ms.filter fun p => p.1 == "user" || p.1 == "assistant" || p.1 == "system").map
        fun p => ⟨p.1, p.2⟩ := by
  induction ms with
  | nil => rfl
  | cons p ps ih =>
    simp only [List.map_cons, convert_messages, Option.getD_some, List.filter_cons]
    by_cases h1 : p.1 = "user"
    · simp [h1, ih]
    · by_cases h2 : p.1 = "assistant"
      · simp [h1, h2, ih]
      · by_cases h3 : p.1 = "system"
        · simp [h1, h2, h3, ih]
        · simp [h1, h2, h3, ih]

/-- Claim C8: every event the adapter buffers is a JSON object whose `type`
key decodes to `agent_response` or `error`, and its frame is exactly the
serialized object wrapped as `data: <json>` terminated by two newlines. -/
theorem emitted_frames_type_key (agent_run : AgentRunFn) (messages : List PMsg)
    (ev : Json) (hev : ev ∈ stream_events agent_run messages) :
    (∃ fields, ev = Json.obj fields) ∧
    (ev.lookup "type" = some (.str "agent_response") ∨
      ev.lookup "type" = some (.str "error")) ∧
    format_sse_event ev = "data: " ++ dumps ev ++ "\n\n" := by
  have h : ev = started_event ∨ (∃ c ts, ev = chunk_event c ts) ∨
      (∃ r, ev = final_event r) ∨ (∃ m, ev = error_event m) := by
    simp only [stream_events, List.mem_cons] at hev
    rcases hev with h | hev
    · exact .inl h
    · split at hev
      · simp only [List.mem_singleton] at hev
        exact .inr (.inr (.inr ⟨_, hev⟩))
      · exact .inr (mem_outcome_events _ _ hev)
  rcases h with rfl | ⟨c, ts, rfl⟩ | ⟨r, rfl⟩ | ⟨m, rfl⟩
  · exact ⟨⟨_, rfl⟩, .inl rfl, rfl⟩
  · exact ⟨⟨_, rfl⟩, .inl rfl, rfl⟩
  · exact ⟨⟨_, rfl⟩, .inl rfl, rfl⟩
  · exact ⟨⟨_, rfl⟩, .inr rfl, rfl⟩

/-- Witness for claim C8: the started event of a concrete stream. -/
theorem emitted_frames_type_key_witness :
    (∃ fields, started_event = Json.obj fields) ∧
    (started_event.lookup "type" = some (.str "agent_response") ∨
      started_event.lookup "type" = some (.str "error")) ∧
    format_sse_event started_event = "data: " ++ dumps started_event ++ "\n\n" :=
  emitted_frames_type_key wOkRun [] started_event (List.Mem.head _)

/-- Claim C9: every response returned by `handle_request` — streaming 200,
405, 400 and 500 — carries the header `Access-Control-Allow-Origin: *`. -/
theorem all_responses_have_cors (b64decode : String → Except String String)
    (parse : String → Except String RunAgentInput) (agent_run : AgentRunFn)
    (event : RequestEvent) :
    (handle_request b64decode parse agent_run event).headers.lookup
      "Access-Control-Allow-Origin" = some "*" := by
  rcases event with ⟨hmeth, hbody, flag⟩
  simp only [handle_request]
  by_cases hm : (hmeth.getD "POST") ≠ "POST"
  · rw [if_pos hm]; rfl
  · rw [if_neg hm]
    rcases hd : (if (flag : Bool) then b64decode (hbody.getD "\x7b\x7d")
        else Except.ok (hbody.getD "\x7b\x7d")) with e | body
    · rfl
    · dsimp only
      rcases hp : parse body with e | ri <;> rfl

/-- Claim C10: a message with no `role` key is converted as a `user` message
rather than dropped; a message with no `content` key is converted as if its
content were the empty string; and an envelope with no `httpMethod` key is
handled exactly like a POST, never rejected with 405. -/
theorem defaults_for_missing_keys :
    (∀ c : String, convert_messages [⟨none, some c⟩] = [⟨"user", c⟩]) ∧
    (∀ ro : Option String,
      convert_messages [⟨ro, none⟩] = convert_messages [⟨ro, some ""⟩]) ∧
    (∀ (b64decode : String → Except String String)
        (parse : String → Except String RunAgentInput) (agent_run : AgentRunFn)
        (body : Option String) (flag : Bool),
      handle_request b64decode parse agent_run ⟨none, body, flag⟩ =
        handle_request b64decode parse agent_run ⟨some "POST", body, flag⟩ ∧
      (handle_request b64decode parse agent_run ⟨none, body, flag⟩).statusCode ≠ 405) := by
  refine ⟨fun c => rfl, fun ro => rfl,
    fun b64decode parse agent_run body flag => ⟨rfl, ?_⟩⟩
  simp only [handle_request]
  rw [if_neg (by decide : ¬((none : Option String).getD "POST" ≠ "POST"))]
  rcases hd : (if (flag : Bool) then b64decode (body.getD "\x7b\x7d")
      else Except.ok (body.getD "\x7b\x7d")) with e | decoded
  · show (500 : Nat) ≠ 405; decide
  · dsimp only
    rcases hp : parse decoded with e | ri
    · show (400 : Nat) ≠ 405; decide
    · show (200 : Nat) ≠ 405; decide
